import Mathlib

/-
  Verification of the bubble-tea-demo terminal demos.

  A shallow embedding of the Go sources: Go `float64` values are modelled as
  exact rationals (ℚ); every claim settled here depends only on sign and
  order comparisons that are unaffected by rounding, not on binary rounding
  behaviour.  Go `int` is modelled as ℤ.  The Go conversion `int(f)`
  truncates toward zero and is modelled by `goTrunc`.  The global
  `math/rand` generator is modelled as an explicit state (`Rng`) carrying a
  stream of float draws and a stream of integer draws; each call to
  `rand.Float64` / `rand.Intn` consumes one element.  `make` with a
  negative length panics in Go; allocation functions therefore return
  `Option`, with `none` marking the panic.
-/

namespace BubbleTea

/-- Go `int(f)` conversion: truncation toward zero. -/
def goTrunc (q : ℚ) : ℤ := if q < 0 then ⌈q⌉ else ⌊q⌋

/-- State of the global `math/rand` generator: a stream of `rand.Float64`
results, a stream of raw draws for `rand.Intn`, and a cursor. -/
structure Rng where
  floats : Nat → ℚ
  ints : Nat → Nat
  idx : Nat

/-- Model of `rand.Float64()`: consume one element of the float stream. -/
def randFloat (r : Rng) : ℚ × Rng := (r.floats r.idx, { r with idx := r.idx + 1 })

/-- Model of `rand.Intn(n)`: consume one element of the integer stream, reduced mod `n`
so the result lies in `[0, n)` as Go guarantees. -/
def randIntn (n : Nat) (r : Rng) : Nat × Rng := (r.ints r.idx % n, { r with idx := r.idx + 1 })

/-- An `Rng` whose draws are all zero. -/
def rngZero : Rng := ⟨fun _ => 0, fun _ => 0, 0⟩

/-- An `Rng` whose integer draws are all one. -/
def rngOne : Rng := ⟨fun _ => 0, fun _ => 1, 0⟩

/-- Function `common.Clamp(value, min, max)` from `common/utils.go`. -/
def Clamp (value lo hi : ℚ) : ℚ := if value < lo then lo else if hi < value then hi else value

/-- The eight-glyph palette of `common.GetWaveChar`. -/
def waveChars : List String := ["▁", "▂", "▃", "▄", "▅", "▆", "▇", "█"]

/-- The bucket index computed by `common.GetWaveChar`:
`int(Clamp(height*float64(len(chars)), 0, float64(len(chars)-1)))`. -/
def waveCharIndex (height : ℚ) : ℤ := goTrunc (Clamp (height * 8) 0 7)

/-- Function `common.GetWaveChar` from `common/utils.go`. -/
def GetWaveChar (height : ℚ) : String := waveChars.getD (waveCharIndex height).toNat (" ")

/-- The plasma demo's model record. -/
structure PlasmaModel where
  width : ℤ
  height : ℤ
  time : ℚ
  speed : ℚ
  paused : Bool
  palette : ℤ
  intensity : ℚ
  deriving DecidableEq

/-- Function `initialModel()` of the plasma demo. -/
def plasmaInitial : PlasmaModel :=
  { width := 80, height := 24, time := 0, speed := 1, paused := false, palette := 0, intensity := 1 }

/-- Messages delivered by the bubbletea event loop to a demo:
a frame tick, a key press, or a terminal resize. -/
inductive Msg where
  | tick
  | key (s : String)
  | resize (w h : ℤ)
  deriving DecidableEq

/-- The plasma demo's `Update` for `tea.KeyMsg` (the `tea.Quit` command on
"q"/"ctrl+c" leaves the model itself unchanged). -/
def plasmaKeyUpdate (m : PlasmaModel) (s : String) : PlasmaModel :=
  if s = "q" ∨ s = "ctrl+c" then m
  else if s = "space" then { m with paused := !m.paused }
  else if s = "r" then { m with time := 0 }
  else if s = "1" then { m with palette := 0 }
  else if s = "2" then { m with palette := 1 }
  else if s = "3" then { m with palette := 2 }
  else if s = "4" then { m with palette := 3 }
  else if s = "up" then { m with speed := min (m.speed + 1/5) 3 }
  else if s = "down" then { m with speed := max (m.speed - 1/5) (1/10) }
  else if s = "left" then { m with intensity := max (m.intensity - 1/10) (3/10) }
  else if s = "right" then { m with intensity := min (m.intensity + 1/10) 2 }
  else m

/-- The plasma demo's `Update`: resize stores `Width` and `Height-4`;
a tick advances `time` by `0.1*speed` unless paused; keys as above. -/
def plasmaUpdate (m : PlasmaModel) (msg : Msg) : PlasmaModel :=
  match msg with
  | .resize w h => { m with width := w, height := h - 4 }
  | .tick => if !m.paused then { m with time := m.time + 1/10 * m.speed } else m
  | .key s => plasmaKeyUpdate m s

/-- The twelve-glyph character table of `getPlasmaChar`. -/
def plasmaChars : List String := [" ", "·", "∘", "•", "◦", "○", "●", "▫", "▪", "▒", "▓", "█"]

/-- The bucket index computed by `getPlasmaChar`:
`charIndex := int(value * float64(len(chars)-1))` followed by the
upper-bound guard `if charIndex >= len(chars) { charIndex = len(chars)-1 }`.
There is no lower-bound guard. -/
def plasmaCharIndex (value : ℚ) : ℤ :=
  let i := goTrunc (value * 11)
  if 12 ≤ i then 11 else i

/-- Two lowercase hex digits as printed by Go's `fmt.Sprintf("%02x", g)`:
values below 16 are zero-padded to width two; negative values print a sign. -/
def hex02 (g : ℤ) : String :=
  if g < 0 then ("-") ++ String.mk (Nat.toDigits 16 g.natAbs)
  else if g < 16 then ("0") ++ String.mk (Nat.toDigits 16 g.toNat)
  else String.mk (Nat.toDigits 16 g.toNat)

/-- Function `getFireColor` of the plasma demo. -/
def PlasmaModel.getFireColor (_ : PlasmaModel) (value : ℚ) : String :=
  if value < 1/5 then ("#330000")
  else if value < 2/5 then ("#660000")
  else if value < 3/5 then ("#990000")
  else if value < 7/10 then ("#CC3300")
  else if value < 4/5 then ("#FF4400")
  else if value < 9/10 then ("#FF8800")
  else ("#FFCC00")

/-- Function `getOceanColor` of the plasma demo. -/
def PlasmaModel.getOceanColor (_ : PlasmaModel) (value : ℚ) : String :=
  if value < 1/5 then ("#000033")
  else if value < 2/5 then ("#000066")
  else if value < 3/5 then ("#003399")
  else if value < 7/10 then ("#0066CC")
  else if value < 4/5 then ("#0099FF")
  else if value < 9/10 then ("#33CCFF")
  else ("#66FFFF")

/-- Function `getPsychedelicColor` of the plasma demo. -/
def PlasmaModel.getPsychedelicColor (_ : PlasmaModel) (value : ℚ) : String :=
  let hue := value * 360
  if hue < 60 then ("#FF0080")
  else if hue < 120 then ("#8000FF")
  else if hue < 180 then ("#0080FF")
  else if hue < 240 then ("#00FF80")
  else if hue < 300 then ("#80FF00")
  else ("#FF8000")

/-- Function `getMonochromeColor` of the plasma demo: `gray := int(value*255)`. -/
def PlasmaModel.getMonochromeColor (_ : PlasmaModel) (value : ℚ) : String :=
  let gray := goTrunc (value * 255)
  "#" ++ hex02 gray ++ hex02 gray ++ hex02 gray

/-- Function `getPlasmaChar` of the plasma demo.  The character lookup
`chars[charIndex]` panics in Go when the index is negative, which the
embedding records as `none`. -/
def PlasmaModel.getPlasmaChar (m : PlasmaModel) (value : ℚ) : Option (String × String) :=
  let i := plasmaCharIndex value
  if i < 0 then none
  else
    let char := plasmaChars.getD i.toNat (" ")
    let color :=
      if m.palette = 0 then m.getFireColor value
      else if m.palette = 1 then m.getOceanColor value
      else if m.palette = 2 then m.getPsychedelicColor value
      else if m.palette = 3 then m.getMonochromeColor value
      else m.getFireColor value
    some (char, color)

/-- Function `getPlasmaChar` lifted to the ambient-RNG calling convention used by the
glyph mappers: the Go function makes no `rand` calls, so it returns the
generator state unchanged. -/
def getPlasmaCharR (m : PlasmaModel) (value : ℚ) (rng : Rng) :
    Option (String × String) × Rng :=
  (m.getPlasmaChar value, rng)

/-- The fire demo's model record. -/
structure FireModel where
  width : ℤ
  height : ℤ
  fireField : List (List ℚ)
  intensity : ℚ
  windForce : ℚ
  paused : Bool

/-- Function `initialModel()` of the fire demo; note that `fireField` starts `nil`
and is only allocated by the first resize or reset. -/
def fireInitial : FireModel :=
  { width := 80, height := 24, fireField := [], intensity := 1, windForce := 0, paused := false }

/-- Function `initFireField()`: `make([][]float64, height)` of zeroed rows of length
`width`.  Go's `make` panics on a negative length, recorded as `none`
(a zero-row grid allocates no rows, so a negative width only panics when
at least one row exists). -/
def initFireField (h w : ℤ) : Option (List (List ℚ)) :=
  if h < 0 then none
  else if 0 < h ∧ w < 0 then none
  else some (List.replicate h.toNat (List.replicate w.toNat 0))

/-- One iteration of the heat-injection loop of `updateFire` at column `x`:
with probability 0.7 write `(0.8+0.2*rand)*intensity` (boosted by 1.2 on
columns divisible by 3 or 7) into the bottom row of the old field. -/
def injectStep (intensity : ℚ) (bottomRow : Nat) (st : List (List ℚ) × Rng) (x : Nat) :
    List (List ℚ) × Rng :=
  let r1 := (randFloat st.2).1
  let rng1 := (randFloat st.2).2
  if r1 < 7/10 then
    let r2 := (randFloat rng1).1
    let rng2 := (randFloat rng1).2
    let heat0 := (4/5 + r2 * (1/5)) * intensity
    let heat := if x % 3 = 0 ∨ x % 7 = 0 then heat0 * (6/5) else heat0
    (st.1.set bottomRow ((st.1.getD bottomRow []).set x heat), rng2)
  else (st.1, rng1)

/-- The new heat of cell `(y,x)` in `updateFire`'s propagation loop, reading
the (already injected) old field: weighted samples from the row below, a
wind-shifted sample, turbulence from one `rand.Float64` draw, a
height-dependent cooling factor, horizontal spreading, clamped at 0. -/
def cellHeat (field : List (List ℚ)) (h w : ℤ) (wind : ℚ) (y x : ℕ) (r3 : ℚ) : ℚ :=
  let get : ℕ → ℕ → ℚ := fun yy xx => (field.getD yy []).getD xx 0
  let below :=
    if (y : ℤ) < h - 1 then
      get (y+1) x * (2/5)
      + (if 0 < x then get (y+1) (x-1) * (1/5) else 0)
      + (if (x : ℤ) < w - 1 then get (y+1) (x+1) * (1/5) else 0)
    else 0
  let windOffset : ℤ := goTrunc (wind * 2)
  let windX : ℤ := (x : ℤ) - windOffset
  let withWind :=
    below + (if 0 ≤ windX ∧ windX < w ∧ (y : ℤ) < h - 1 then get (y+1) windX.toNat * (1/5) else 0)
  let withTurb := withWind + (r3 - 1/2) * (1/10)
  let cooled := withTurb * (19/20 - ((h : ℚ) - (y : ℚ)) / (h : ℚ) * (3/10))
  let spread := cooled
    + (if 0 < x then get y (x-1) * (1/10) else 0)
    + (if (x : ℤ) < w - 1 then get y (x+1) * (1/10) else 0)
  max 0 spread

/-- The inner `x` loop of the propagation pass: build row `y` of the new
field left to right, consuming one float draw per cell. -/
def propRow (field : List (List ℚ)) (h w : ℤ) (wind : ℚ) (y : ℕ) (rng : Rng) :
    List ℚ × Rng :=
  (List.range w.toNat).foldl
    (fun st x =>
      (st.1 ++ [cellHeat field h w wind y x (randFloat st.2).1], (randFloat st.2).2))
    ([], rng)

/-- The outer `y` loop of the propagation pass: the new field's row 0 is the
zero row the loop never writes (`for y := 1; y < height; y++`), and rows
`1..height-1` are computed by `propRow` in order. -/
def propagateFire (field : List (List ℚ)) (h w : ℤ) (wind : ℚ) (rng : Rng) :
    List (List ℚ) × Rng :=
  (List.range' 1 (h.toNat - 1)).foldl
    (fun st y =>
      (st.1 ++ [(propRow field h w wind y st.2).1], (propRow field h w wind y st.2).2))
    ([List.replicate w.toNat 0], rng)

/-- Function `updateFire()`: no-op on an empty field; otherwise inject heat into the
bottom row of the old field, then compute the new field and replace the old
one wholesale. -/
def FireModel.updateFire (m : FireModel) (rng : Rng) : FireModel × Rng :=
  if m.fireField = [] then (m, rng)
  else
    let bottomRow := (m.height - 1).toNat
    let st1 :=
      (List.range m.width.toNat).foldl (injectStep m.intensity bottomRow) (m.fireField, rng)
    let st2 := propagateFire st1.1 m.height m.width m.windForce st1.2
    ({ m with fireField := st2.1 }, st2.2)

/-- The fire demo's `Update` for `tea.KeyMsg`. -/
def fireKeyUpdate (m : FireModel) (s : String) : Option FireModel :=
  if s = "q" ∨ s = "ctrl+c" then some m
  else if s = "space" then some { m with paused := !m.paused }
  else if s = "r" then (initFireField m.height m.width).map (fun f => { m with fireField := f })
  else if s = "up" then some { m with intensity := min (m.intensity + 1/10) 2 }
  else if s = "down" then some { m with intensity := max (m.intensity - 1/10) (1/10) }
  else if s = "left" then some { m with windForce := max (m.windForce - 1/10) (-1) }
  else if s = "right" then some { m with windForce := min (m.windForce + 1/10) 1 }
  else if s = "0" then some { m with windForce := 0 }
  else some m

/-- The fire demo's `Update`: resize stores `Width`/`Height-4` and
reallocates the field (a panic in `make` is `none`); an unpaused tick runs
`updateFire`; keys as above. -/
def fireUpdate (m : FireModel) (msg : Msg) (rng : Rng) : Option (FireModel × Rng) :=
  match msg with
  | .resize w h =>
      (initFireField (h - 4) w).map
        (fun f => ({ m with width := w, height := h - 4, fireField := f }, rng))
  | .tick => some (if m.paused then (m, rng) else m.updateFire rng)
  | .key s => (fireKeyUpdate m s).map (fun m1 => (m1, rng))

/-- Function `getFireChar` of the fire demo: the color is a piecewise function of the
heat alone, while the glyph within most heat bands is drawn from a small
list by `rand.Intn`, consuming one integer draw. -/
def getFireChar (heat : ℚ) (rng : Rng) : (String × String) × Rng :=
  if heat < 1/10 then ((" ", "#000000"), rng)
  else if heat < 1/5 then
    let (k, rng1) := randIntn 3 rng
    ((([".", "·", "∘"] : List String).getD k ("."), "#330000"), rng1)
  else if heat < 7/20 then
    let (k, rng1) := randIntn 3 rng
    (((["∘", "•", "◦"] : List String).getD k ("∘"), "#660000"), rng1)
  else if heat < 1/2 then
    let (k, rng1) := randIntn 3 rng
    (((["▁", "▂", "▃"] : List String).getD k ("▁"), "#990000"), rng1)
  else if heat < 13/20 then
    let (k, rng1) := randIntn 3 rng
    (((["▄", "▅", "▆"] : List String).getD k ("▄"), "#CC3300"), rng1)
  else if heat < 4/5 then
    let (k, rng1) := randIntn 3 rng
    (((["▇", "█", "▉"] : List String).getD k ("▇"), "#FF4500"), rng1)
  else if heat < 19/20 then
    let (k, rng1) := randIntn 3 rng
    (((["▓", "▒", "░"] : List String).getD k ("▓"), "#FF6600"), rng1)
  else
    let (k, rng1) := randIntn 4 rng
    (((["▓", "▒", "░", "▔"] : List String).getD k ("▓"), "#FFAA00"), rng1)

/-- The 1×1-grid scenario of C8: field initialized to heat 0, intensity 1. -/
def fireScenario : FireModel :=
  { width := 1, height := 1, fireField := [[0]], intensity := 1, windForce := 0, paused := false }

/-- A particle record. -/
structure Particle where
  x : ℚ
  y : ℚ
  vx : ℚ
  vy : ℚ
  life : ℚ
  char : String
  color : String
  deriving DecidableEq

/-- The particle demo's model record. -/
structure ParticleModel where
  width : ℤ
  height : ℤ
  particles : List Particle
  emitting : Bool
  gravity : ℚ
  wind : ℚ
  deriving DecidableEq

/-- Function `initialModel()` of the particle demo. -/
def particleInitial : ParticleModel :=
  { width := 80, height := 24, particles := [], emitting := true, gravity := 1/10, wind := 0 }

/-- The per-particle physics of one tick of the particle demo's `Update`:
`vy += gravity; vx += wind; x += vx; y += vy; life -= 0.02`. -/
def particleStep (gravity wind : ℚ) (p : Particle) : Particle :=
  let vy := p.vy + gravity
  let vx := p.vx + wind
  { p with vy := vy, vx := vx, x := p.x + vx, y := p.y + vy, life := p.life - 1/50 }

/-- The position part of the survivor condition of the particle demo:
`p.y < float64(m.height) && p.x >= 0 && p.x < float64(m.width)`. -/
def posInBounds (w h : ℤ) (p : Particle) : Bool :=
  decide (p.y < (h : ℚ)) && decide (0 ≤ p.x) && decide (p.x < (w : ℚ))

/-- The full survivor condition of the per-tick collection pass:
`p.life > 0 &&` the position bounds. -/
def survives (w h : ℤ) (p : Particle) : Bool :=
  decide (0 < p.life) && posInBounds w h p

/-- The survivor-collection pass of one tick: every particle is stepped and
the survivors are collected, in order, into the new active set. -/
def collectAlive (m : ParticleModel) : List Particle :=
  (m.particles.map (particleStep m.gravity m.wind)).filter (survives m.width m.height)

/-- The particle demo's `Update` for `tea.KeyMsg`; note that `r` clears the
particles and restores gravity and wind but does not touch `emitting`, and
that `left`/`right` adjust `wind` by ±0.05 with no clamp. -/
def particleKeyUpdate (m : ParticleModel) (s : String) : ParticleModel :=
  if s = "q" ∨ s = "ctrl+c" then m
  else if s = "space" then { m with emitting := !m.emitting }
  else if s = "g" then { m with gravity := -m.gravity }
  else if s = "left" then { m with wind := m.wind - 1/20 }
  else if s = "right" then { m with wind := m.wind + 1/20 }
  else if s = "r" then { m with particles := [], gravity := 1/10, wind := 0 }
  else m

/-- Iteration of the per-particle physics step, `k` times. -/
def iterSteps (gravity wind : ℚ) : ℕ → Particle → Particle
  | 0, p => p
  | k + 1, p => particleStep gravity wind (iterSteps gravity wind k p)

/-- Function `initGrid()` of the scroller demo: `make([][]string, height)` of rows
`make([]string, width)` with every cell set to `" "`.  Go's `make` panics on
a negative length, recorded as `none`. -/
def initGrid (h w : ℤ) : Option (List (List String)) :=
  if h < 0 then none
  else if 0 < h ∧ w < 0 then none
  else some (List.replicate h.toNat (List.replicate w.toNat (" ")))

/-- The scroller demo's `tea.WindowSizeMsg` branch: `m.width = msg.Width;
m.height = msg.Height - 4; m.initGrid()`; the resulting grid. -/
def scrollerResizeGrid (w h : ℤ) : Option (List (List String)) := initGrid (h - 4) w

/-- The fire demo's `tea.WindowSizeMsg` branch: `m.width = msg.Width;
m.height = msg.Height - 4; m.initFireField()`; the resulting field. -/
def fireResizeField (w h : ℤ) : Option (List (List ℚ)) := initFireField (h - 4) w

/-- Abstract transcendental operations used by the metaballs demo. -/
structure RealOps where
  sin : ℚ → ℚ
  cos : ℚ → ℚ
  sqrt : ℚ → ℚ
  pi : ℚ

/-- A metaball record. -/
structure Metaball where
  x : ℚ
  y : ℚ
  vx : ℚ
  vy : ℚ
  radius : ℚ
  strength : ℚ
  colorPhase : ℚ

/-- The metaballs demo's model record. -/
structure MetaballsModel where
  width : ℤ
  height : ℤ
  metaballs : List Metaball
  time : ℚ
  threshold : ℚ
  paused : Bool
  colorMode : ℤ

/-- Function `initialModel()` of the metaballs demo: four balls. -/
def metaballsInitial (ops : RealOps) : MetaballsModel :=
  { width := 80, height := 24,
    metaballs :=
      [ ⟨20, 10, 4/5, 3/10, 8, 1, 0⟩,
        ⟨40, 15, -(1/2), 7/10, 6, 4/5, ops.pi / 3⟩,
        ⟨60, 8, 3/5, -(2/5), 7, 9/10, 2 * ops.pi / 3⟩,
        ⟨30, 20, -(7/10), -(3/5), 5, 7/10, ops.pi⟩ ],
    time := 0, threshold := 1, paused := false, colorMode := 0 }

/-- The wall-bounce step of `updateMetaballs` for one axis: after the
position integration, if the position is at or beyond either wall
(`pos <= radius || pos >= size-radius`), negate the velocity once and clamp
the position into `[radius, size-radius]`. -/
def bounce1D (size r p v : ℚ) : ℚ × ℚ :=
  if p ≤ r ∨ size - r ≤ p then (max r (min (size - r) p), -v) else (p, v)

/-- The per-ball body of `updateMetaballs`: integrate the position, bounce
off both wall pairs, add the organic velocity tweak, clamp the speed to 1.5,
and reanimate radius and strength. -/
def updateBall (ops : RealOps) (t : ℚ) (w h : ℤ) (b : Metaball) : Metaball :=
  let bx := bounce1D (w : ℚ) b.radius (b.x + b.vx) b.vx
  let byc := bounce1D (h : ℚ) b.radius (b.y + b.vy) b.vy
  let vx2 := bx.2 + ops.sin (t * (7/10) + b.colorPhase) * (1/20)
  let vy2 := byc.2 + ops.cos (t * (4/5) + b.colorPhase) * (1/20)
  let vel := ops.sqrt (vx2 * vx2 + vy2 * vy2)
  let vx3 := if 3/2 < vel then vx2 / vel * (3/2) else vx2
  let vy3 := if 3/2 < vel then vy2 / vel * (3/2) else vy2
  { b with
      x := bx.1
      y := byc.1
      vx := vx3
      vy := vy3
      radius := 4 + ops.sin (t * (6/5) + b.colorPhase) * 2
      strength := 7/10 + ops.sin (t * (9/10) + b.colorPhase) * (3/10) }

/-- The ball appended by the `a` key. -/
def newMetaball (ops : RealOps) (t : ℚ) (w h : ℤ) : Metaball :=
  { x := (w : ℚ) / 2, y := (h : ℚ) / 2,
    vx := ops.sin t * (4/5), vy := ops.cos t * (4/5),
    radius := 4 + ops.sin (t * 2) * 2,
    strength := 3/5 + ops.sin (t * 3) * (3/10),
    colorPhase := t }

/-- The metaballs demo's `Update` for `tea.KeyMsg`.  The `r` branch of the
source sets `m = initialModel()` and then reads `msg.Width`/`msg.Height`
off the key message, fields a `tea.KeyMsg` does not have (the branch does
not type-check as written); it is modelled as restoring the initial model
while keeping the current dimensions, the evident intent. -/
def metaballsKeyUpdate (ops : RealOps) (m : MetaballsModel) (s : String) : MetaballsModel :=
  if s = "q" ∨ s = "ctrl+c" then m
  else if s = "space" then { m with paused := !m.paused }
  else if s = "r" then { metaballsInitial ops with width := m.width, height := m.height }
  else if s = "1" then { m with colorMode := 0 }
  else if s = "2" then { m with colorMode := 1 }
  else if s = "3" then { m with colorMode := 2 }
  else if s = "4" then { m with colorMode := 3 }
  else if s = "up" then { m with threshold := min (m.threshold + 1/10) 3 }
  else if s = "down" then { m with threshold := max (m.threshold - 1/10) (3/10) }
  else if s = "a" then
    if m.metaballs.length < 8
    then { m with metaballs := m.metaballs ++ [newMetaball ops m.time m.width m.height] }
    else m
  else if s = "d" then
    if 1 < m.metaballs.length
    then { m with metaballs := m.metaballs.dropLast }
    else m
  else m

/-- The metaballs demo's `Update`: resize stores `Width`/`Height-4`; an
unpaused tick advances time by 0.1 and then updates every ball in place
(reading the advanced time); keys as above. -/
def metaballsUpdate (ops : RealOps) (m : MetaballsModel) (msg : Msg) : MetaballsModel :=
  match msg with
  | .resize w h => { m with width := w, height := h - 4 }
  | .tick =>
      if !m.paused then
        { m with
            time := m.time + 1/10
            metaballs := m.metaballs.map (updateBall ops (m.time + 1/10) m.width m.height) }
      else m
  | .key s => metaballsKeyUpdate ops m s

/-- The metaballs model reached from the initial model by a message list. -/
def metaballsRun (ops : RealOps) (msgs : List Msg) : MetaballsModel :=
  msgs.foldl (metaballsUpdate ops) (metaballsInitial ops)

/-- The plasma model reached from the initial model by a message list. -/
def plasmaRun (msgs : List Msg) : PlasmaModel := msgs.foldl plasmaUpdate plasmaInitial

/-- The fire model reached from the initial model by a message list,
threading the generator state; `none` marks a panic along the way. -/
def fireRun (msgs : List Msg) (rng : Rng) : Option (FireModel × Rng) :=
  msgs.foldl (fun acc msg => acc.bind (fun st => fireUpdate st.1 msg st.2))
    (some (fireInitial, rng))

/-- The particle model after `n` presses of the right-arrow key. -/
def particleRights : ℕ → ParticleModel
  | 0 => particleInitial
  | n + 1 => particleKeyUpdate (particleRights n) ("right")


theorem goTrunc_nonneg {q : ℚ} (h : 0 ≤ q) : 0 ≤ goTrunc q := by
  rw [goTrunc, if_neg (not_lt.mpr h)]
  exact Int.floor_nonneg.mpr h

theorem goTrunc_le {q : ℚ} {n : ℤ} (h0 : 0 ≤ q) (h : q ≤ (n : ℚ)) : goTrunc q ≤ n := by
  rw [goTrunc, if_neg (not_lt.mpr h0)]
  calc ⌊q⌋ ≤ ⌊(n : ℚ)⌋ := Int.floor_le_floor h
  _ = n := Int.floor_intCast n

theorem Clamp_bounds {v lo hi : ℚ} (h : lo ≤ hi) :
    lo ≤ Clamp v lo hi ∧ Clamp v lo hi ≤ hi := by
  unfold Clamp
  split_ifs with h1 h2 <;> constructor <;> linarith

/-- C2 (counterexample): at intensity exactly `-0.5` the plasma mapper's
bucket index is `int(-0.5*11) = -5`, which lies outside `[0, N-1]`; the code
clamps only the upper end of the index. -/
theorem plasma_bucket_index_negative : plasmaCharIndex (-(1/2)) < 0 := by
  have hceil : goTrunc ((-(1/2) : ℚ) * 11) = -5 := by
    rw [goTrunc, if_pos (by norm_num)]
    rw [Int.ceil_eq_iff]
    constructor <;> norm_num
  simp only [plasmaCharIndex, hceil]
  norm_num

/-- C2 (amended): `common.GetWaveChar` clamps its bucket index into `[0, N-1]`
for every intensity, including 0, 1 and out-of-range inputs; `getPlasmaChar`
guarantees its index lies in `[0, N-1]` only for nonnegative intensities
(its sole guard is against indices `≥ N`), and every caller clamps the
intensity into `[0,1]` before invoking it. -/
theorem glyph_bucket_index_in_range :
    (∀ h : ℚ, 0 ≤ waveCharIndex h ∧ waveCharIndex h ≤ 7) ∧
    (∀ v : ℚ, 0 ≤ v → 0 ≤ plasmaCharIndex v ∧ plasmaCharIndex v ≤ 11) := by
  constructor
  · intro h
    have hc := @Clamp_bounds (h * 8) 0 7 (by norm_num)
    rw [waveCharIndex]
    refine ⟨goTrunc_nonneg hc.1, goTrunc_le hc.1 ?_⟩
    exact_mod_cast hc.2
  · intro v hv
    have h0 : (0:ℚ) ≤ v * 11 := by positivity
    have hnn : 0 ≤ goTrunc (v * 11) := goTrunc_nonneg h0
    simp only [plasmaCharIndex]
    split_ifs with h12
    · exact ⟨by norm_num, by norm_num⟩
    · exact ⟨hnn, by omega⟩

/-- Witness for C2's amended theorem at the concrete intensities `-0.5`
(wave mapper) and `1.5` (plasma mapper). -/
theorem glyph_bucket_index_in_range_witness :
    (0 ≤ waveCharIndex (-(1/2)) ∧ waveCharIndex (-(1/2)) ≤ 7) ∧
    (0 ≤ (3/2 : ℚ)) ∧ (0 ≤ plasmaCharIndex (3/2) ∧ plasmaCharIndex (3/2) ≤ 11) :=
  ⟨glyph_bucket_index_in_range.1 (-(1/2)), by norm_num,
    glyph_bucket_index_in_range.2 (3/2) (by norm_num)⟩

/-- C1: while the paused flag is true, a tick message leaves the simulation
state unchanged: the plasma model (frame clock included) and the fire model
(heat field included) are equal before and after processing the tick, and
the fire demo consumes no randomness. -/
theorem paused_tick_freezes_state (mp : PlasmaModel) (mf : FireModel) (rng : Rng)
    (hp : mp.paused = true) (hf : mf.paused = true) :
    plasmaUpdate mp .tick = mp ∧ fireUpdate mf .tick rng = some (mf, rng) := by
  constructor
  · simp [plasmaUpdate, hp]
  · simp [fireUpdate, hf]

/-- Witness for C1 at concrete paused plasma and fire models. -/
theorem paused_tick_freezes_state_witness :
    ({ plasmaInitial with paused := true } : PlasmaModel).paused = true ∧
    ({ fireInitial with paused := true } : FireModel).paused = true ∧
    plasmaUpdate { plasmaInitial with paused := true } .tick
      = { plasmaInitial with paused := true } ∧
    fireUpdate { fireInitial with paused := true } .tick rngZero
      = some ({ fireInitial with paused := true }, rngZero) :=
  ⟨rfl, rfl,
    (paused_tick_freezes_state { plasmaInitial with paused := true }
      { fireInitial with paused := true } rngZero rfl rfl).1,
    (paused_tick_freezes_state { plasmaInitial with paused := true }
      { fireInitial with paused := true } rngZero rfl rfl).2⟩

/-- C3 (counterexample): the fire demo's glyph mapper is not a deterministic
function of its declared inputs: at the same heat `0.15` two different
states of the global random generator yield different glyphs. -/
theorem fire_glyph_depends_on_rng :
    (getFireChar (3/20) rngZero).1 ≠ (getFireChar (3/20) rngOne).1 := by
  have h1 : ¬ ((3 : ℚ)/20 < 1/10) := by norm_num
  have h2 : ((3 : ℚ)/20 < 1/5) := by norm_num
  simp only [getFireChar, h1, h2, if_false, if_true, randIntn, rngZero, rngOne]
  decide

/-- C3 (amended): the plasma glyph mapper is a deterministic pure function of
the cell intensity and the palette (it reads no generator state), and the
fire glyph mapper's color component is a deterministic pure function of the
heat; the fire mapper's glyph component, however, additionally depends on
the global random generator state. -/
theorem mapper_determinism :
    (∀ (m : PlasmaModel) (v : ℚ) (r1 r2 : Rng),
      (getPlasmaCharR m v r1).1 = (getPlasmaCharR m v r2).1) ∧
    (∀ (heat : ℚ) (r1 r2 : Rng),
      ((getFireChar heat r1).1).2 = ((getFireChar heat r2).1).2) := by
  refine ⟨fun m v r1 r2 => rfl, fun heat r1 r2 => ?_⟩
  rw [getFireChar, getFireChar]
  split_ifs <;> rfl

/-- List-fold invariance: a predicate preserved by every step of a left fold
holds of the result. -/
theorem foldl_preserve {α σ : Type _} (f : σ → α → σ) (P : σ → Prop) :
    ∀ (l : List α) (s : σ), P s → (∀ s a, a ∈ l → P s → P (f s a)) → P (l.foldl f s)
  | [], _, hs, _ => hs
  | a :: l, s, hs, hstep =>
    foldl_preserve f P l (f s a) (hstep s a (List.mem_cons_self a l) hs)
      (fun s b hb => hstep s b (List.mem_cons_of_mem a hb))

theorem cellHeat_nonneg (field : List (List ℚ)) (h w : ℤ) (wind : ℚ) (y x : ℕ) (r3 : ℚ) :
    0 ≤ cellHeat field h w wind y x r3 := by
  rw [cellHeat]
  exact le_max_left 0 _

theorem propRow_nonneg (field : List (List ℚ)) (h w : ℤ) (wind : ℚ) (y : ℕ) (rng : Rng) :
    ∀ v ∈ (propRow field h w wind y rng).1, 0 ≤ v := by
  rw [propRow]
  refine foldl_preserve _ (fun st : List ℚ × Rng => ∀ v ∈ st.1, 0 ≤ v) _ _ (by simp) ?_
  intro st a _ hst v hv
  rcases List.mem_append.mp hv with hv | hv
  · exact hst v hv
  · rcases List.mem_singleton.mp hv with rfl
    exact cellHeat_nonneg _ _ _ _ _ _ _

/-- After the propagation pass the new field is the untouched zero top row
followed by the computed rows, and every cell is nonnegative. -/
theorem propagateFire_shape (field : List (List ℚ)) (h w : ℤ) (wind : ℚ) (rng : Rng) :
    (∃ rest, (propagateFire field h w wind rng).1 = List.replicate w.toNat 0 :: rest) ∧
    (∀ row ∈ (propagateFire field h w wind rng).1, ∀ v ∈ row, 0 ≤ v) := by
  rw [propagateFire]
  refine foldl_preserve _
    (fun st : List (List ℚ) × Rng => (∃ rest, st.1 = List.replicate w.toNat 0 :: rest) ∧
      (∀ row ∈ st.1, ∀ v ∈ row, 0 ≤ v)) _ _ ⟨⟨[], rfl⟩, ?_⟩ ?_
  · intro row hrow v hv
    rcases List.mem_singleton.mp hrow with rfl
    rcases List.mem_replicate.mp hv with ⟨-, rfl⟩
    exact le_refl 0
  · rintro st y _ ⟨⟨rest, hrest⟩, hnn⟩
    constructor
    · exact ⟨rest ++ [(propRow field h w wind y st.2).1], by rw [hrest]; simp⟩
    · intro row hrow v hv
      rcases List.mem_append.mp hrow with hrow | hrow
      · exact hnn row hrow v hv
      · rcases List.mem_singleton.mp hrow with rfl
        exact propRow_nonneg field h w wind y st.2 v hv

/-- C8 (counterexample): on a 1×1 grid, row 0 and row height-1 are the same
row, so after the injection and one propagation tick the claimed strict
inequality `heat(row 0) < heat(row height-1)` is false (for any generator
state; shown at the all-zero one). -/
theorem fire_one_by_one_no_strict_decrease :
    ¬ ((((fireScenario.updateFire rngZero).1.fireField.getD 0 []).getD 0 0)
      < (((fireScenario.updateFire rngZero).1.fireField.getD
            ((fireScenario.height - 1).toNat) []).getD 0 0)) := by
  have h : (fireScenario.height - 1).toNat = 0 := rfl
  rw [h]
  exact lt_irrefl _

/-- C8 (amended): in the 1×1 scenario, after one heat injection at the
bottom row and one propagation tick the resulting field is exactly `[[0]]`
(the propagation loop `for y := 1; y < height; y++` never writes row 0 and
the old field is replaced wholesale), so row 0's heat is less than or equal
to — in fact equal to — row height-1's heat, for every generator state. -/
theorem fire_scenario_top_le_bottom : ∀ rng : Rng,
    ((fireScenario.updateFire rng).1).fireField = [[0]] ∧
    (((fireScenario.updateFire rng).1.fireField.getD 0 []).getD 0 0)
      ≤ (((fireScenario.updateFire rng).1.fireField.getD
            ((fireScenario.height - 1).toNat) []).getD 0 0) := by
  intro rng
  have hfield : ((fireScenario.updateFire rng).1).fireField = [[0]] := by
    rw [FireModel.updateFire, if_neg (by simp [fireScenario])]
    simp [propagateFire, fireScenario]
  refine ⟨hfield, ?_⟩
  rw [hfield]
  simp [fireScenario]

/-- C4 (counterexample): the reset key does not reinitialize the simulation
state to its startup values, and the post-reset state is not independent of
the prior state: starting from the initial plasma model, one `up` press
followed by `r` leaves speed `1.2`, different from the startup speed `1.0`,
and different from pressing `r` at the initial model directly; likewise the
particle demo's `r` preserves a toggled `emitting` flag. -/
theorem reset_keeps_prior_state :
    (plasmaUpdate (plasmaUpdate plasmaInitial (.key ("up"))) (.key ("r"))).speed
        ≠ plasmaInitial.speed ∧
    plasmaUpdate (plasmaUpdate plasmaInitial (.key ("up"))) (.key ("r"))
        ≠ plasmaUpdate plasmaInitial (.key ("r")) ∧
    (particleKeyUpdate (particleKeyUpdate particleInitial ("space")) ("r")).emitting
        ≠ particleInitial.emitting := by
  refine ⟨?_, ?_, by decide⟩
  · show min (1 + 1/5) 3 ≠ 1
    rw [min_def, if_pos (by norm_num)]
    norm_num
  · intro hcontra
    have hs := congrArg PlasmaModel.speed hcontra
    revert hs
    show min (1 + 1/5) 3 = 1 → False
    rw [min_def, if_pos (by norm_num)]
    norm_num

/-- C4 (amended): the reset input is idempotent in every demo state —
pressing `r` twice yields exactly the state of pressing it once — but the
post-reset state retains prior parameter state: the plasma reset only
zeroes the frame clock, and the particle reset clears the particles and
restores gravity and wind while preserving the emitting flag. -/
theorem reset_idempotent (mp : PlasmaModel) (mq : ParticleModel) :
    plasmaUpdate (plasmaUpdate mp (.key ("r"))) (.key ("r")) = plasmaUpdate mp (.key ("r")) ∧
    particleKeyUpdate (particleKeyUpdate mq ("r")) ("r") = particleKeyUpdate mq ("r") := by
  constructor <;> rfl

theorem iterSteps_life (gravity wind : ℚ) (p : Particle) :
    ∀ k : ℕ, (iterSteps gravity wind k p).life = p.life - k * (1/50)
  | 0 => by simp [iterSteps]
  | k + 1 => by
    rw [iterSteps, particleStep]
    simp only [iterSteps_life gravity wind p k]
    push_cast
    ring

/-- C7: a particle created with life 1.0, losing exactly 0.02 life per tick,
has life ≤ 0 — and therefore fails the survivor-collection condition, which
removes it from the active set — after exactly 50 ticks; on every earlier
tick its life is still positive, so (as long as it stays inside the demo's
position bounds, the only other removal criterion) it is kept. -/
theorem particle_life_fifty_ticks (gravity wind : ℚ) (W H : ℤ) (p0 : Particle)
    (hlife : p0.life = 1)
    (hbounds : ∀ k : ℕ, k ≤ 49 → 1 ≤ k →
      posInBounds W H (iterSteps gravity wind k p0) = true) :
    (∀ k : ℕ, k ≤ 49 → 1 ≤ k → survives W H (iterSteps gravity wind k p0) = true) ∧
    survives W H (iterSteps gravity wind 50 p0) = false ∧
    (iterSteps gravity wind 50 p0).life ≤ 0 ∧
    (∀ k : ℕ, k ≤ 49 → 0 < (iterSteps gravity wind k p0).life) := by
  have hlt : ∀ k : ℕ, k ≤ 49 → 0 < (iterSteps gravity wind k p0).life := by
    intro k hk
    rw [iterSteps_life gravity wind p0 k, hlife]
    have hkq : (k : ℚ) ≤ 49 := by exact_mod_cast hk
    linarith
  have h50 : (iterSteps gravity wind 50 p0).life = 0 := by
    rw [iterSteps_life gravity wind p0 50, hlife]
    norm_num
  refine ⟨?_, ?_, le_of_eq h50, hlt⟩
  · intro k hk h1
    rw [survives, hbounds k hk h1]
    simp [hlt k hk]
  · rw [survives, h50]
    simp

theorem iterSteps_static (k : ℕ) :
    iterSteps 0 0 k ⟨40, 19, 0, 0, 1, "✦", "#FFD700"⟩
      = ⟨40, 19, 0, 0, 1 - k * (1/50), "✦", "#FFD700"⟩ := by
  induction k with
  | zero => simp [iterSteps]
  | succ n ih =>
    rw [iterSteps, ih, particleStep]
    simp only [Particle.mk.injEq]
    norm_num
    ring

/-- Witness for C7: a motionless particle (zero velocity, gravity and wind)
emitted at (40,19) in an 80×24 model stays in bounds, is kept on ticks 1–49
and is removed on tick 50. -/
theorem particle_life_fifty_ticks_witness :
    ((⟨40, 19, 0, 0, 1, "✦", "#FFD700"⟩ : Particle).life = 1) ∧
    (∀ k : ℕ, k ≤ 49 → 1 ≤ k →
      posInBounds 80 24 (iterSteps 0 0 k ⟨40, 19, 0, 0, 1, "✦", "#FFD700"⟩) = true) ∧
    survives 80 24 (iterSteps 0 0 50 ⟨40, 19, 0, 0, 1, "✦", "#FFD700"⟩) = false := by
  have hb : ∀ k : ℕ, k ≤ 49 → 1 ≤ k →
      posInBounds 80 24 (iterSteps 0 0 k ⟨40, 19, 0, 0, 1, "✦", "#FFD700"⟩) = true := by
    intro k hk h1
    rw [iterSteps_static k, posInBounds]
    simp only [Bool.and_eq_true, decide_eq_true_eq]
    refine ⟨⟨?_, ?_⟩, ?_⟩ <;> norm_num
  exact ⟨rfl, hb, (particle_life_fifty_ticks 0 0 80 24 _ rfl hb).2.1⟩

/-- C5 (counterexample): a resize event with terminal height 2 (below the
4-row UI reservation) makes `initGrid`/`initFireField` call `make` with the
negative length `-2`, which panics: no reallocated grid exists after the
event, falsifying the claim for that resize. -/
theorem resize_small_height_panics :
    scrollerResizeGrid 10 2 = none ∧ fireResizeField 10 2 = none := by
  constructor <;> rfl

/-- C5 (amended): for every resize event with width W ≥ 0 and height H ≥ 4,
the grid allocated immediately after the event has exactly H−4 rows and
exactly W columns, every cell the blank glyph (scroller) or zero heat
(fire); for H < 4 the reallocation panics instead. -/
theorem resize_grid_dims_blank (w h : ℤ) (hw : 0 ≤ w) (hh : 4 ≤ h) :
    (∃ g, scrollerResizeGrid w h = some g ∧ (g.length : ℤ) = h - 4 ∧
      ∀ row ∈ g, (row.length : ℤ) = w ∧ ∀ c ∈ row, c = " ") ∧
    (∃ f, fireResizeField w h = some f ∧ (f.length : ℤ) = h - 4 ∧
      ∀ row ∈ f, (row.length : ℤ) = w ∧ ∀ v ∈ row, v = 0) := by
  have h4 : ¬ (h - 4 < 0) := by omega
  have hcon : ¬ (0 < h - 4 ∧ w < 0) := by omega
  constructor
  · refine ⟨_, by rw [scrollerResizeGrid, initGrid, if_neg h4, if_neg hcon], ?_, ?_⟩
    · rw [List.length_replicate]; omega
    · intro row hrow
      rcases List.mem_replicate.mp hrow with ⟨-, rfl⟩
      exact ⟨by rw [List.length_replicate]; omega, fun c hc => (List.mem_replicate.mp hc).2⟩
  · refine ⟨_, by rw [fireResizeField, initFireField, if_neg h4, if_neg hcon], ?_, ?_⟩
    · rw [List.length_replicate]; omega
    · intro row hrow
      rcases List.mem_replicate.mp hrow with ⟨-, rfl⟩
      exact ⟨by rw [List.length_replicate]; omega, fun v hv => (List.mem_replicate.mp hv).2⟩

/-- Witness for C5's amended theorem at a concrete 5×7 resize. -/
theorem resize_grid_dims_blank_witness :
    (0 ≤ (5 : ℤ)) ∧ (4 ≤ (7 : ℤ)) ∧
    ((∃ g, scrollerResizeGrid 5 7 = some g ∧ (g.length : ℤ) = 7 - 4 ∧
      ∀ row ∈ g, (row.length : ℤ) = 5 ∧ ∀ c ∈ row, c = " ") ∧
    (∃ f, fireResizeField 5 7 = some f ∧ (f.length : ℤ) = 7 - 4 ∧
      ∀ row ∈ f, (row.length : ℤ) = 5 ∧ ∀ v ∈ row, v = 0)) :=
  ⟨by norm_num, by norm_num, resize_grid_dims_blank 5 7 (by norm_num) (by norm_num)⟩

/-- C6: for a ball of positive radius that fits in the domain (2r ≤ size),
the position immediately after a wall bounce lies in [0, size), and the
velocity is negated exactly once: its sign flips (positive to negative and
negative to positive). -/
theorem bounce_position_in_domain (size r p v : ℚ)
    (hr : 0 < r) (hfit : r + r ≤ size) (htrig : p ≤ r ∨ size - r ≤ p) :
    (0 ≤ (bounce1D size r p v).1 ∧ (bounce1D size r p v).1 < size) ∧
    (bounce1D size r p v).2 = -v ∧
    (0 < v → (bounce1D size r p v).2 < 0) ∧
    (v < 0 → 0 < (bounce1D size r p v).2) := by
  rw [bounce1D, if_pos htrig]
  have h1 : r ≤ size - r := by linarith
  refine ⟨⟨?_, ?_⟩, rfl, fun hv => by simpa using hv, fun hv => by simpa using hv⟩
  · calc (0 : ℚ) ≤ r := le_of_lt hr
    _ ≤ max r (min (size - r) p) := le_max_left _ _
  · calc max r (min (size - r) p) ≤ size - r := max_le h1 (min_le_left _ _)
    _ < size := by linarith

/-- Witness for C6: a ball of radius 8 in an 80-wide domain that has crossed
the left wall (position 0, velocity 1 after the flip of -1... shown for the
incoming position 0 and velocity 1). -/
theorem bounce_position_in_domain_witness :
    (0 < (8 : ℚ)) ∧ ((8 : ℚ) + 8 ≤ 80) ∧ ((0 : ℚ) ≤ 8 ∨ (80 : ℚ) - 8 ≤ 0) ∧
    ((0 ≤ (bounce1D 80 8 0 1).1 ∧ (bounce1D 80 8 0 1).1 < 80) ∧
      (bounce1D 80 8 0 1).2 = -1 ∧
      (0 < (1 : ℚ) → (bounce1D 80 8 0 1).2 < 0) ∧
      ((1 : ℚ) < 0 → 0 < (bounce1D 80 8 0 1).2)) :=
  ⟨by norm_num, by norm_num, Or.inl (by norm_num),
    bounce_position_in_domain 80 8 0 1 (by norm_num) (by norm_num) (Or.inl (by norm_num))⟩

set_option maxHeartbeats 2000000 in
theorem metaballs_step_count (ops : RealOps) (m : MetaballsModel) (msg : Msg)
    (h1 : 1 ≤ m.metaballs.length) (h8 : m.metaballs.length ≤ 8) :
    1 ≤ (metaballsUpdate ops m msg).metaballs.length ∧
      (metaballsUpdate ops m msg).metaballs.length ≤ 8 := by
  cases msg with
  | resize w h => exact ⟨h1, h8⟩
  | tick =>
    rw [metaballsUpdate]
    split_ifs with hp
    · simpa [List.length_map] using ⟨h1, h8⟩
    · exact ⟨h1, h8⟩
  | key s =>
    show 1 ≤ (metaballsKeyUpdate ops m s).metaballs.length ∧
      (metaballsKeyUpdate ops m s).metaballs.length ≤ 8
    rw [metaballsKeyUpdate]
    by_cases e1 : s = "q" ∨ s = "ctrl+c"
    · rw [if_pos e1]; exact ⟨h1, h8⟩
    rw [if_neg e1]
    by_cases e2 : s = "space"
    · rw [if_pos e2]; exact ⟨h1, h8⟩
    rw [if_neg e2]
    by_cases e3 : s = "r"
    · rw [if_pos e3]; refine ⟨?_, ?_⟩ <;> simp [metaballsInitial]
    rw [if_neg e3]
    by_cases e4 : s = "1"
    · rw [if_pos e4]; exact ⟨h1, h8⟩
    rw [if_neg e4]
    by_cases e5 : s = "2"
    · rw [if_pos e5]; exact ⟨h1, h8⟩
    rw [if_neg e5]
    by_cases e6 : s = "3"
    · rw [if_pos e6]; exact ⟨h1, h8⟩
    rw [if_neg e6]
    by_cases e7 : s = "4"
    · rw [if_pos e7]; exact ⟨h1, h8⟩
    rw [if_neg e7]
    by_cases e8 : s = "up"
    · rw [if_pos e8]; exact ⟨h1, h8⟩
    rw [if_neg e8]
    by_cases e9 : s = "down"
    · rw [if_pos e9]; exact ⟨h1, h8⟩
    rw [if_neg e9]
    by_cases e10 : s = "a"
    · rw [if_pos e10]
      by_cases ha : m.metaballs.length < 8
      · rw [if_pos ha]
        simp only [List.length_append, List.length_singleton]
        omega
      · rw [if_neg ha]; exact ⟨h1, h8⟩
    rw [if_neg e10]
    by_cases e11 : s = "d"
    · rw [if_pos e11]
      by_cases hd : 1 < m.metaballs.length
      · rw [if_pos hd]
        simp only [List.length_dropLast]
        omega
      · rw [if_neg hd]; exact ⟨h1, h8⟩
    rw [if_neg e11]
    exact ⟨h1, h8⟩

/-- C10: in every state reachable from the metaballs demo's initial model by
any message sequence, the number of metaballs lies between 1 and 8
inclusive: the initial model has 4 balls, `a` appends only below 8, `d`
drops the last only above 1, reset restores the initial 4, and ticks and
resizes preserve the count. -/
theorem metaball_count_invariant (ops : RealOps) (msgs : List Msg) :
    1 ≤ (metaballsRun ops msgs).metaballs.length ∧
      (metaballsRun ops msgs).metaballs.length ≤ 8 := by
  rw [metaballsRun]
  refine foldl_preserve _
    (fun m : MetaballsModel => 1 ≤ m.metaballs.length ∧ m.metaballs.length ≤ 8)
    msgs (metaballsInitial ops) (by simp [metaballsInitial]) ?_
  rintro m msg - ⟨h1, h8⟩
  exact metaballs_step_count ops m msg h1 h8

theorem updateFire_params (m : FireModel) (rng : Rng) :
    ((m.updateFire rng).1).intensity = m.intensity ∧
      ((m.updateFire rng).1).windForce = m.windForce := by
  rw [FireModel.updateFire]
  split_ifs <;> exact ⟨rfl, rfl⟩

theorem plasma_step_bounds (m : PlasmaModel) (msg : Msg)
    (h1 : 1/10 ≤ m.speed) (h2 : m.speed ≤ 3)
    (h3 : 3/10 ≤ m.intensity) (h4 : m.intensity ≤ 2) :
    1/10 ≤ (plasmaUpdate m msg).speed ∧ (plasmaUpdate m msg).speed ≤ 3 ∧
      3/10 ≤ (plasmaUpdate m msg).intensity ∧ (plasmaUpdate m msg).intensity ≤ 2 := by
  cases msg with
  | resize w hh => exact ⟨h1, h2, h3, h4⟩
  | tick =>
    simp only [plasmaUpdate]
    by_cases hp : (!m.paused) = true
    · rw [if_pos hp]; exact ⟨h1, h2, h3, h4⟩
    · rw [if_neg hp]; exact ⟨h1, h2, h3, h4⟩
  | key s =>
    simp only [plasmaUpdate]
    rw [plasmaKeyUpdate]
    by_cases e1 : s = "q" ∨ s = "ctrl+c"
    · rw [if_pos e1]; exact ⟨h1, h2, h3, h4⟩
    rw [if_neg e1]
    by_cases e2 : s = "space"
    · rw [if_pos e2]; exact ⟨h1, h2, h3, h4⟩
    rw [if_neg e2]
    by_cases e3 : s = "r"
    · rw [if_pos e3]; exact ⟨h1, h2, h3, h4⟩
    rw [if_neg e3]
    by_cases e4 : s = "1"
    · rw [if_pos e4]; exact ⟨h1, h2, h3, h4⟩
    rw [if_neg e4]
    by_cases e5 : s = "2"
    · rw [if_pos e5]; exact ⟨h1, h2, h3, h4⟩
    rw [if_neg e5]
    by_cases e6 : s = "3"
    · rw [if_pos e6]; exact ⟨h1, h2, h3, h4⟩
    rw [if_neg e6]
    by_cases e7 : s = "4"
    · rw [if_pos e7]; exact ⟨h1, h2, h3, h4⟩
    rw [if_neg e7]
    by_cases e8 : s = "up"
    · rw [if_pos e8]
      exact ⟨le_min (by linarith) (by norm_num), min_le_right _ _, h3, h4⟩
    rw [if_neg e8]
    by_cases e9 : s = "down"
    · rw [if_pos e9]
      exact ⟨le_max_right _ _, max_le (by linarith) (by norm_num), h3, h4⟩
    rw [if_neg e9]
    by_cases e10 : s = "left"
    · rw [if_pos e10]
      exact ⟨h1, h2, le_max_right _ _, max_le (by linarith) (by norm_num)⟩
    rw [if_neg e10]
    by_cases e11 : s = "right"
    · rw [if_pos e11]
      exact ⟨h1, h2, le_min (by linarith) (by norm_num), min_le_right _ _⟩
    rw [if_neg e11]
    exact ⟨h1, h2, h3, h4⟩

theorem fire_step_bounds (m : FireModel) (msg : Msg) (rng : Rng) (x : FireModel × Rng)
    (hstep : fireUpdate m msg rng = some x)
    (h1 : 1/10 ≤ m.intensity) (h2 : m.intensity ≤ 2)
    (h3 : -1 ≤ m.windForce) (h4 : m.windForce ≤ 1) :
    1/10 ≤ x.1.intensity ∧ x.1.intensity ≤ 2 ∧
      -1 ≤ x.1.windForce ∧ x.1.windForce ≤ 1 := by
  cases msg with
  | resize w hh =>
    simp only [fireUpdate] at hstep
    rcases Option.map_eq_some'.mp hstep with ⟨f, -, rfl⟩
    exact ⟨h1, h2, h3, h4⟩
  | tick =>
    simp only [fireUpdate, Option.some.injEq] at hstep
    subst hstep
    by_cases hp : m.paused = true
    · rw [if_pos hp]; exact ⟨h1, h2, h3, h4⟩
    · rw [if_neg hp]
      rw [(updateFire_params m rng).1, (updateFire_params m rng).2]
      exact ⟨h1, h2, h3, h4⟩
  | key s =>
    simp only [fireUpdate] at hstep
    rcases Option.map_eq_some'.mp hstep with ⟨m1, hm1, rfl⟩
    rw [fireKeyUpdate] at hm1
    by_cases e1 : s = "q" ∨ s = "ctrl+c"
    · rw [if_pos e1] at hm1; cases Option.some.inj hm1; exact ⟨h1, h2, h3, h4⟩
    rw [if_neg e1] at hm1
    by_cases e2 : s = "space"
    · rw [if_pos e2] at hm1; cases Option.some.inj hm1; exact ⟨h1, h2, h3, h4⟩
    rw [if_neg e2] at hm1
    by_cases e3 : s = "r"
    · rw [if_pos e3] at hm1
      rcases Option.map_eq_some'.mp hm1 with ⟨f, -, rfl⟩
      exact ⟨h1, h2, h3, h4⟩
    rw [if_neg e3] at hm1
    by_cases e4 : s = "up"
    · rw [if_pos e4] at hm1; cases Option.some.inj hm1
      exact ⟨le_min (by linarith) (by norm_num), min_le_right _ _, h3, h4⟩
    rw [if_neg e4] at hm1
    by_cases e5 : s = "down"
    · rw [if_pos e5] at hm1; cases Option.some.inj hm1
      exact ⟨le_max_right _ _, max_le (by linarith) (by norm_num), h3, h4⟩
    rw [if_neg e5] at hm1
    by_cases e6 : s = "left"
    · rw [if_pos e6] at hm1; cases Option.some.inj hm1
      exact ⟨h1, h2, le_max_right _ _, max_le (by linarith) (by norm_num)⟩
    rw [if_neg e6] at hm1
    by_cases e7 : s = "right"
    · rw [if_pos e7] at hm1; cases Option.some.inj hm1
      exact ⟨h1, h2, le_min (by linarith) (by norm_num), min_le_right _ _⟩
    rw [if_neg e7] at hm1
    by_cases e8 : s = "0"
    · rw [if_pos e8] at hm1; cases Option.some.inj hm1
      exact ⟨h1, h2, by norm_num, by norm_num⟩
    rw [if_neg e8] at hm1
    cases Option.some.inj hm1
    exact ⟨h1, h2, h3, h4⟩

/-- C9 (amended): in the plasma demo (speed clamped to [0.1, 3.0], intensity
to [0.3, 2.0]) and the fire demo (intensity clamped to [0.1, 2.0], wind to
[-1.0, 1.0]) every arrow key press clamps its parameter, so after any
message sequence from the initial model the parameters remain in range; the
particle demo's wind parameter, by contrast, is adjusted by ±0.05 per press
with no clamp (see the counterexample). -/
theorem arrow_params_clamped :
    (∀ msgs : List Msg,
      1/10 ≤ (plasmaRun msgs).speed ∧ (plasmaRun msgs).speed ≤ 3 ∧
        3/10 ≤ (plasmaRun msgs).intensity ∧ (plasmaRun msgs).intensity ≤ 2) ∧
    (∀ (msgs : List Msg) (rng : Rng) (x : FireModel × Rng),
      fireRun msgs rng = some x →
        1/10 ≤ x.1.intensity ∧ x.1.intensity ≤ 2 ∧
          -1 ≤ x.1.windForce ∧ x.1.windForce ≤ 1) := by
  constructor
  · intro msgs
    rw [plasmaRun]
    refine foldl_preserve _
      (fun m : PlasmaModel => 1/10 ≤ m.speed ∧ m.speed ≤ 3 ∧
        3/10 ≤ m.intensity ∧ m.intensity ≤ 2)
      msgs plasmaInitial (by norm_num [plasmaInitial]) ?_
    rintro m msg - ⟨h1, h2, h3, h4⟩
    exact plasma_step_bounds m msg h1 h2 h3 h4
  · intro msgs rng
    rw [fireRun]
    refine foldl_preserve _
      (fun acc : Option (FireModel × Rng) => ∀ x, acc = some x →
        1/10 ≤ x.1.intensity ∧ x.1.intensity ≤ 2 ∧
          -1 ≤ x.1.windForce ∧ x.1.windForce ≤ 1)
      msgs (some (fireInitial, rng)) ?_ ?_
    · intro x hx
      cases Option.some.inj hx
      refine ⟨by norm_num [fireInitial], by norm_num [fireInitial],
        by norm_num [fireInitial], by norm_num [fireInitial]⟩
    · rintro acc msg - hacc x hx
      cases acc with
      | none => exact absurd hx (by simp)
      | some st =>
        obtain ⟨h1, h2, h3, h4⟩ := hacc st rfl
        exact fire_step_bounds st.1 msg st.2 x hx h1 h2 h3 h4

/-- Witness for C9's amended theorem: one `up` press in the plasma demo and
the empty fire run. -/
theorem arrow_params_clamped_witness :
    (1/10 ≤ (plasmaRun [Msg.key ("up")]).speed ∧ (plasmaRun [Msg.key ("up")]).speed ≤ 3 ∧
      3/10 ≤ (plasmaRun [Msg.key ("up")]).intensity ∧ (plasmaRun [Msg.key ("up")]).intensity ≤ 2) ∧
    fireRun [] rngZero = some (fireInitial, rngZero) ∧
    (1/10 ≤ (fireInitial, rngZero).1.intensity ∧ (fireInitial, rngZero).1.intensity ≤ 2 ∧
      -1 ≤ (fireInitial, rngZero).1.windForce ∧ (fireInitial, rngZero).1.windForce ≤ 1) :=
  ⟨arrow_params_clamped.1 [Msg.key ("up")], rfl,
    arrow_params_clamped.2 [] rngZero (fireInitial, rngZero) rfl⟩

theorem particleRights_wind (n : ℕ) : (particleRights n).wind = n * (1/20) := by
  induction n with
  | zero => simp [particleRights, particleInitial]
  | succ k ih =>
    show (particleKeyUpdate (particleRights k) ("right")).wind = _
    rw [particleKeyUpdate]
    rw [if_neg (by decide), if_neg (by decide), if_neg (by decide), if_neg (by decide),
      if_pos rfl]
    show (particleRights k).wind + 1/20 = _
    rw [ih]
    push_cast
    ring

/-- C9 (counterexample): the particle demo's wind parameter is not clamped
to any fixed range: each right-arrow press adds 0.05, so the wind after `n`
presses is `n/20`, which exceeds every candidate upper bound. -/
theorem particle_wind_unbounded :
    ¬ ∃ hi : ℚ, ∀ n : ℕ, (particleRights n).wind ≤ hi := by
  rintro ⟨hi, hall⟩
  have h := hall ((⌈20 * hi⌉).toNat + 1)
  rw [particleRights_wind] at h
  have h1 : (20 : ℚ) * hi ≤ (⌈20 * hi⌉ : ℚ) := Int.le_ceil _
  have h2 : ((⌈20 * hi⌉ : ℤ) : ℚ) ≤ (((⌈20 * hi⌉).toNat : ℤ) : ℚ) := by
    exact_mod_cast Int.self_le_toNat _
  push_cast at h h2
  linarith


end BubbleTea
